import Mathlib

/-!
Shallow embedding of the `DAOSkillProofFHE` Solidity contract
(src/frontend/web/src/App.tsx, contract section) and proofs about the
claims of its specification.

Modelling conventions:
* `euint32` FHE handles are opaque capabilities: they are represented by a
  free term algebra (`EUint32`) with exactly the constructors the contract
  uses (`FHE.asEuint32` and `FHE.add`); the system never inspects them.
* `bytes32` values are represented by a free term algebra (`Bytes32`):
  arbitrary 32-byte words (`word`, with `word 0` the Solidity zero
  default), handle serializations (`FHE.toBytes32`), and keccak images of
  `abi.encode(cts, address(this))` (`keccakEnc`).  Treating keccak as a
  free constructor is the usual collision-free idealization.
* Solidity mappings are association lists with first-match lookup and a
  type-specific default; `batches` is an array (the source indexes it with
  `batches.length`-based sequential ids).
* Every external function takes `msg.sender` / `block.timestamp` / oracle
  outputs as explicit arguments and returns `Except Err ContractState`;
  `Except.error` models `revert`, i.e. the pre-state is kept unchanged.
* `uint32` casts are `% 2 ^ 32`; `uint256` arithmetic on realistic
  timestamps never wraps, so it is plain `Nat` arithmetic.
-/

deriving instance DecidableEq for Except

namespace DAOSkillProof

/-- Opaque FHE handle algebra: the contract only ever creates trivial
encryptions (`FHE.asEuint32`) and adds handles (`FHE.add`). -/
inductive EUint32 where
  | asEuint32 (v : Nat) : EUint32
  | add (a b : EUint32) : EUint32
  deriving DecidableEq, Repr

/-- `bytes32` values used as contribution ids and ciphertext-array
entries: raw words and serialized handles (`FHE.toBytes32`).  Solidity has
a single `bytes32` type; the model stratifies it into this type and
`HashB32` below because the contract never places a keccak output inside a
ciphertext array, while state hashes are only ever compared with other
hashes or with the `bytes32(0)` mapping default. -/
inductive Bytes32 where
  | word (v : Nat) : Bytes32
  | toBytes32 (h : EUint32) : Bytes32
  deriving DecidableEq, Repr

/-- `bytes32` values used as state hashes: the `bytes32(0)` default (and
other raw words) and keccak images of `abi.encode(cts, address(this))`.
Treating keccak as a free constructor is the usual collision-free
idealization. -/
inductive HashB32 where
  | word (v : Nat) : HashB32
  | keccakEnc (cts : List Bytes32) (selfAddr : Nat) : HashB32
  deriving DecidableEq, Repr

/-- struct SkillContribution (source field `exists` is a Lean keyword,
rendered `exists_`). -/
structure SkillContribution where
  skillScore : EUint32
  contributionScore : EUint32
  totalScore : EUint32
  exists_ : Bool
  deriving DecidableEq, Repr

/-- struct Batch (source field `open` is a Lean keyword, rendered
`isOpen`). -/
structure Batch where
  id : Nat
  isOpen : Bool
  deriving DecidableEq, Repr

/-- struct DecryptionContext. -/
structure DecryptionContext where
  batchId : Nat
  stateHash : HashB32
  processed : Bool
  deriving DecidableEq, Repr

/-- The contract's events. -/
inductive Event where
  | ProviderAdded (provider : Nat)
  | ProviderRemoved (provider : Nat)
  | Paused (account : Nat)
  | Unpaused (account : Nat)
  | CooldownSet (cooldownSeconds : Nat)
  | BatchOpened (batchId : Nat)
  | BatchClosed (batchId : Nat)
  | ContributionSubmitted (provider batchId : Nat) (contributionId : Bytes32)
  | DecryptionRequested (requestId batchId : Nat)
  | DecryptionCompleted (requestId batchId totalScoreSum : Nat)
  deriving DecidableEq, Repr

/-- The contract's declared custom errors (the full list from the source;
note there is no `DuplicateContribution`, `AlreadyClosed` or
`UnknownRequest`). -/
inductive Err where
  | NotOwner
  | NotProvider
  | Paused
  | CooldownActive
  | InvalidBatch
  | BatchClosed
  | InvalidArgument
  | ReplayDetected
  | StateMismatch
  | DecryptionFailed
  deriving DecidableEq, Repr

/-- First-match lookup in an association list with a default, the model of
reading a Solidity mapping. -/
def lookupD {α β : Type} [DecidableEq α] (m : List (α × β)) (k : α) (d : β) : β :=
  match m.find? (fun kv => kv.1 = k) with
  | some kv => kv.2
  | none => d

/-- Mapping write: the new binding shadows any older one. -/
def setK {α β : Type} [DecidableEq α] (m : List (α × β)) (k : α) (v : β) :
    List (α × β) :=
  (k, v) :: m

/-- Mapping default for `SkillContribution` (only its `exists` flag is ever
read on a default record). -/
def defaultContribution : SkillContribution :=
  { skillScore := EUint32.asEuint32 0
    contributionScore := EUint32.asEuint32 0
    totalScore := EUint32.asEuint32 0
    exists_ := false }

/-- Mapping default for `DecryptionContext`: zero batch id, `bytes32(0)`
state hash, unprocessed. -/
def defaultContext : DecryptionContext :=
  { batchId := 0, stateHash := HashB32.word 0, processed := false }

/-- The contract's full storage, plus `selfAddr` (= `address(this)`) and
the append-only event log. -/
structure ContractState where
  providers : List (Nat × Bool)
  batches : List Batch
  contributions : List (Bytes32 × SkillContribution)
  decryptionContexts : List (Nat × DecryptionContext)
  lastSubmissionTime : List (Nat × Nat)
  lastDecryptionRequestTime : List (Nat × Nat)
  owner : Nat
  paused : Bool
  cooldownSeconds : Nat
  selfAddr : Nat
  eventLog : List Event
  deriving DecidableEq, Repr

/-- The constructor: `owner = msg.sender`, `cooldownSeconds = 60`, all
storage empty. -/
def initialState (deployer selfAddr : Nat) : ContractState :=
  { providers := []
    batches := []
    contributions := []
    decryptionContexts := []
    lastSubmissionTime := []
    lastDecryptionRequestTime := []
    owner := deployer
    paused := false
    cooldownSeconds := 60
    selfAddr := selfAddr
    eventLog := [] }

/-! ### The contract's external functions

Each function takes the pre-state, `msg.sender` (and, where the source
reads them, `block.timestamp` and oracle-supplied values) and returns
`Except Err ContractState`.  `Except.error e` models `revert e`: the
transaction leaves storage and the event log exactly as they were. -/

/-- `addProvider` (modifiers in source order: `onlyOwner`,
`whenNotPaused`). -/
def addProvider (s : ContractState) (sender provider : Nat) :
    Except Err ContractState :=
  if sender ≠ s.owner then .error .NotOwner
  else if s.paused then .error .Paused
  else .ok { s with
    providers := setK s.providers provider true
    eventLog := s.eventLog ++ [Event.ProviderAdded provider] }

/-- `removeProvider` (`onlyOwner`, `whenNotPaused`). -/
def removeProvider (s : ContractState) (sender provider : Nat) :
    Except Err ContractState :=
  if sender ≠ s.owner then .error .NotOwner
  else if s.paused then .error .Paused
  else .ok { s with
    providers := setK s.providers provider false
    eventLog := s.eventLog ++ [Event.ProviderRemoved provider] }

/-- `pause` (`onlyOwner` only — no pause guard). -/
def pause (s : ContractState) (sender : Nat) : Except Err ContractState :=
  if sender ≠ s.owner then .error .NotOwner
  else .ok { s with
    paused := true
    eventLog := s.eventLog ++ [Event.Paused sender] }

/-- `unpause` (`onlyOwner` only). -/
def unpause (s : ContractState) (sender : Nat) : Except Err ContractState :=
  if sender ≠ s.owner then .error .NotOwner
  else .ok { s with
    paused := false
    eventLog := s.eventLog ++ [Event.Unpaused sender] }

/-- `setCooldownSeconds` (`onlyOwner` only — the source has no
`whenNotPaused` modifier here). -/
def setCooldownSeconds (s : ContractState) (sender n : Nat) :
    Except Err ContractState :=
  if sender ≠ s.owner then .error .NotOwner
  else if n = 0 then .error .InvalidArgument
  else .ok { s with
    cooldownSeconds := n
    eventLog := s.eventLog ++ [Event.CooldownSet n] }

/-- `openBatch` (`onlyOwner`, `whenNotPaused`): appends a batch with
sequential id `uint32(batches.length)` in the open state. -/
def openBatch (s : ContractState) (sender : Nat) : Except Err ContractState :=
  if sender ≠ s.owner then .error .NotOwner
  else if s.paused then .error .Paused
  else
    let newBatchId := s.batches.length % 2 ^ 32
    .ok { s with
      batches := s.batches ++ [{ id := newBatchId, isOpen := true }]
      eventLog := s.eventLog ++ [Event.BatchOpened newBatchId] }

/-- `closeBatch` (`onlyOwner`, `whenNotPaused`): `InvalidBatch` when the
index is out of range, `BatchClosed` when the batch is not open, else
closes it and emits `BatchClosed`. -/
def closeBatch (s : ContractState) (sender batchId : Nat) :
    Except Err ContractState :=
  if sender ≠ s.owner then .error .NotOwner
  else if s.paused then .error .Paused
  else match s.batches[batchId]? with
    | none => .error .InvalidBatch
    | some b =>
      if !b.isOpen then .error .BatchClosed
      else .ok { s with
        batches := s.batches.set batchId { b with isOpen := false }
        eventLog := s.eventLog ++ [Event.BatchClosed batchId] }

/-- `submitContribution` (modifiers in source order: `onlyProvider`,
`whenNotPaused`, `checkSubmissionCooldown`; then the body's checks in
source order).  The duplicate-id check reverts `InvalidArgument` in the
source. -/
def submitContribution (s : ContractState) (sender now batchId : Nat)
    (contributionId : Bytes32) (skillScore contributionScore : EUint32) :
    Except Err ContractState :=
  if !(lookupD s.providers sender false) then .error .NotProvider
  else if s.paused then .error .Paused
  else if now < lookupD s.lastSubmissionTime sender 0 + s.cooldownSeconds then
    .error .CooldownActive
  else match s.batches[batchId]? with
    | none => .error .InvalidBatch
    | some b =>
      if !b.isOpen then .error .BatchClosed
      else if (lookupD s.contributions contributionId defaultContribution).exists_ then
        .error .InvalidArgument
      else
        let totalScore := EUint32.add skillScore contributionScore
        .ok { s with
          contributions := setK s.contributions contributionId
            { skillScore := skillScore
              contributionScore := contributionScore
              totalScore := totalScore
              exists_ := true }
          lastSubmissionTime := setK s.lastSubmissionTime sender now
          eventLog := s.eventLog ++
            [Event.ContributionSubmitted sender batchId contributionId] }

/-- The aggregate both `requestBatchScoreDecryption` and `myCallback`
compute with identical nested loops: find the first batch whose `id`
matches (the loop `break`s there), count ALL batches whose `id` matches,
and take `FHE.asEuint32(uint32(count))` when the count is positive,
starting from `FHE.asEuint32(0)`.  Note it reads only the batch table,
never the contributions mapping. -/
def batchAggregate (batches : List Batch) (batchId : Nat) : EUint32 :=
  match batches.find? (fun b => b.id == batchId) with
  | none => EUint32.asEuint32 0
  | some _ =>
    let count := (batches.filter (fun b => b.id == batchId)).length
    if count > 0 then EUint32.asEuint32 (count % 2 ^ 32)
    else EUint32.asEuint32 0

/-- The singleton ciphertext array `cts` (`new bytes32[](1)`;
`cts[0] = FHE.toBytes32(totalScoreSum)`) built at both call sites. -/
def batchCts (batches : List Batch) (batchId : Nat) : List Bytes32 :=
  [Bytes32.toBytes32 (batchAggregate batches batchId)]

/-- `_hashCiphertexts`: `keccak256(abi.encode(cts, address(this)))`. -/
def hashCiphertexts (cts : List Bytes32) (selfAddr : Nat) : HashB32 :=
  HashB32.keccakEnc cts selfAddr

/-- `requestBatchScoreDecryption` (`onlyOwner`, `whenNotPaused`,
`checkDecryptionCooldown`).  `requestId` is the value returned by the
oracle's `FHE.requestDecryption`, an environment input. -/
def requestBatchScoreDecryption (s : ContractState)
    (sender now batchId requestId : Nat) : Except Err ContractState :=
  if sender ≠ s.owner then .error .NotOwner
  else if s.paused then .error .Paused
  else if now < lookupD s.lastDecryptionRequestTime sender 0 + s.cooldownSeconds then
    .error .CooldownActive
  else match s.batches[batchId]? with
    | none => .error .InvalidBatch
    | some b =>
      if b.isOpen then .error .InvalidBatch
      else
        let cts := batchCts s.batches batchId
        let stateHash := hashCiphertexts cts s.selfAddr
        .ok { s with
          decryptionContexts := setK s.decryptionContexts requestId
            { batchId := batchId, stateHash := stateHash, processed := false }
          lastDecryptionRequestTime := setK s.lastDecryptionRequestTime sender now
          eventLog := s.eventLog ++ [Event.DecryptionRequested requestId batchId] }

/-- `abi.decode(cleartexts, (uint256))` on a 32-byte payload: the
big-endian word value. -/
def decodeUint256 (bs : List Nat) : Nat :=
  bs.foldl (fun acc b => acc * 256 + b % 256) 0

/-- `myCallback(uint256 requestId, bytes cleartexts, bytes proof)`.  The
function is `public` and never reads `msg.sender`; `sender` is carried
only to reflect that any caller can invoke it.  `sigOk` is the outcome of
the external `FHE.checkSignatures(requestId, cleartexts, proof)` call
(the `try`/`catch` normalizes a verification failure to
`DecryptionFailed`). -/
def myCallback (s : ContractState) (_sender requestId : Nat)
    (cleartexts : List Nat) (sigOk : Bool) : Except Err ContractState :=
  let ctx := lookupD s.decryptionContexts requestId defaultContext
  if ctx.processed then .error .ReplayDetected
  else if cleartexts.length ≠ 32 then .error .DecryptionFailed
  else
    let currentBatchId := ctx.batchId
    let cts := batchCts s.batches currentBatchId
    let currentHash := hashCiphertexts cts s.selfAddr
    if currentHash ≠ ctx.stateHash then .error .StateMismatch
    else if !sigOk then .error .DecryptionFailed
    else
      let decryptedTotalScoreSum := decodeUint256 cleartexts
      .ok { s with
        decryptionContexts := setK s.decryptionContexts requestId
          { ctx with processed := true }
        eventLog := s.eventLog ++
          [Event.DecryptionCompleted requestId currentBatchId decryptedTotalScoreSum] }

/-! ### Transition system

An `Op` is one external call with all its environment inputs; `step`
applies it with revert semantics (a failed call leaves the state
unchanged), and `execOps` runs a call sequence from a given state. -/

/-- One external call to the contract, with its environment inputs. -/
inductive Op where
  | addProvider (sender provider : Nat)
  | removeProvider (sender provider : Nat)
  | pause (sender : Nat)
  | unpause (sender : Nat)
  | setCooldownSeconds (sender n : Nat)
  | openBatch (sender : Nat)
  | closeBatch (sender batchId : Nat)
  | submitContribution (sender now batchId : Nat) (contributionId : Bytes32)
      (skillScore contributionScore : EUint32)
  | requestBatchScoreDecryption (sender now batchId requestId : Nat)
  | myCallback (sender requestId : Nat) (cleartexts : List Nat) (sigOk : Bool)
  deriving DecidableEq, Repr

/-- Dispatch one external call. -/
def runOp (s : ContractState) : Op → Except Err ContractState
  | .addProvider sender p => addProvider s sender p
  | .removeProvider sender p => removeProvider s sender p
  | .pause sender => pause s sender
  | .unpause sender => unpause s sender
  | .setCooldownSeconds sender n => setCooldownSeconds s sender n
  | .openBatch sender => openBatch s sender
  | .closeBatch sender bid => closeBatch s sender bid
  | .submitContribution sender now bid cid sk c =>
      submitContribution s sender now bid cid sk c
  | .requestBatchScoreDecryption sender now bid rid =>
      requestBatchScoreDecryption s sender now bid rid
  | .myCallback sender rid cl ok => myCallback s sender rid cl ok

/-- Revert semantics: a failed call leaves the state unchanged. -/
def step (s : ContractState) (op : Op) : ContractState :=
  match runOp s op with
  | .ok s' => s'
  | .error _ => s

/-- Run a sequence of external calls. -/
def execOps (s : ContractState) (ops : List Op) : ContractState :=
  ops.foldl step s

/-- Environment assumption matching the spec's "requestId … assigned by the
oracle dispatch call, globally unique": when an `Op` is a decryption
request, the oracle-assigned id has no existing context. -/
def freshOracleIds (s : ContractState) (op : Op) : Prop :=
  match op with
  | .requestBatchScoreDecryption _ _ _ rid =>
      s.decryptionContexts.find? (fun kv => kv.1 = rid) = none
  | _ => True

/-- The contribution-store invariant behind the registry's uniqueness
guarantee: every stored record has its `exists` flag set, and no two
stored entries share a contribution id. -/
def ContribInvariant (s : ContractState) : Prop :=
  (∀ kv ∈ s.contributions, kv.2.exists_ = true) ∧
  (s.contributions.map Prod.fst).Nodup

/-! ### A concrete scenario used by witnesses and counterexamples

Owner `0`, contract address `7`, provider `1`: the owner authorizes the
provider, opens batch `0`, the provider submits contribution `word 11` at
time `100`, the owner closes batch `0` and requests decryption (oracle
request id `5`, time `100`). -/

/-- Freshly deployed state: owner `0`, `address(this) = 7`. -/
def exBase : ContractState := initialState 0 7

/-- After `addProvider(1)`. -/
def exProv : ContractState := step exBase (.addProvider 0 1)

/-- After `openBatch()` (batch `0`, open). -/
def exOpen : ContractState := step exProv (.openBatch 0)

/-- After provider `1` submits contribution `word 11` at time `100`. -/
def exSub : ContractState :=
  step exOpen (.submitContribution 1 100 0 (.word 11) (.asEuint32 5) (.asEuint32 6))

/-- After `closeBatch(0)`. -/
def exClosed : ContractState := step exSub (.closeBatch 0 0)

/-- After `requestBatchScoreDecryption(0)` with oracle request id `5` at
time `100`. -/
def exReq : ContractState :=
  step exClosed (.requestBatchScoreDecryption 0 100 0 5)

/-- After the owner pauses the system. -/
def exPaused : ContractState := step exReq (.pause 0)

/-- A contribution record inserted at storage level between request and
callback. -/
def intrudedRecord : SkillContribution :=
  { skillScore := .asEuint32 1
    contributionScore := .asEuint32 2
    totalScore := .add (.asEuint32 1) (.asEuint32 2)
    exists_ := true }

/-- `exReq` with one extra stored contribution (`word 99`): the batch-0
contribution set differs from the one at request time. -/
def exIntruded : ContractState :=
  { exReq with contributions := setK exReq.contributions (.word 99) intrudedRecord }

/-- A well-formed 32-byte cleartext payload. -/
def cl32 : List Nat := List.replicate 32 0

/-- After the oracle's callback for request `5` is accepted (caller `42`,
valid signature check). -/
def exDone : ContractState := step exReq (.myCallback 42 5 cl32 true)

/-! ### Helper lemmas -/

theorem lookupD_setK {α β : Type} [DecidableEq α] (m : List (α × β)) (k k' : α)
    (v d : β) : lookupD (setK m k v) k' d = if k' = k then v else lookupD m k' d := by
  by_cases h : k' = k
  · simp [lookupD, setK, List.find?_cons, h]
  · have h' : ¬ k = k' := fun hh => h hh.symm
    simp [lookupD, setK, List.find?_cons, h, h']

theorem step_eq_of_error {s : ContractState} {op : Op} {e : Err}
    (h : runOp s op = .error e) : step s op = s := by
  simp [step, h]

theorem step_eq_of_ok {s s' : ContractState} {op : Op}
    (h : runOp s op = .ok s') : step s op = s' := by
  simp [step, h]

/-- Inversion of a successful `addProvider`. -/
theorem addProvider_ok (s : ContractState) (sender p : Nat) (s' : ContractState)
    (h : addProvider s sender p = .ok s') :
    sender = s.owner ∧ s.paused = false ∧
    s' = { s with providers := setK s.providers p true
                  eventLog := s.eventLog ++ [Event.ProviderAdded p] } := by
  unfold addProvider at h
  by_cases c1 : sender ≠ s.owner
  · rw [if_pos c1] at h; exact Except.noConfusion h
  · rw [if_neg c1] at h
    by_cases c2 : s.paused = true
    · rw [if_pos c2] at h; exact Except.noConfusion h
    · rw [if_neg c2] at h
      exact ⟨by simpa using c1, by simpa using c2, (Except.ok.inj h).symm⟩

/-- Inversion of a successful `removeProvider`. -/
theorem removeProvider_ok (s : ContractState) (sender p : Nat) (s' : ContractState)
    (h : removeProvider s sender p = .ok s') :
    sender = s.owner ∧ s.paused = false ∧
    s' = { s with providers := setK s.providers p false
                  eventLog := s.eventLog ++ [Event.ProviderRemoved p] } := by
  unfold removeProvider at h
  by_cases c1 : sender ≠ s.owner
  · rw [if_pos c1] at h; exact Except.noConfusion h
  · rw [if_neg c1] at h
    by_cases c2 : s.paused = true
    · rw [if_pos c2] at h; exact Except.noConfusion h
    · rw [if_neg c2] at h
      exact ⟨by simpa using c1, by simpa using c2, (Except.ok.inj h).symm⟩

/-- Inversion of a successful `pause`. -/
theorem pause_ok (s : ContractState) (sender : Nat) (s' : ContractState)
    (h : pause s sender = .ok s') :
    sender = s.owner ∧
    s' = { s with paused := true
                  eventLog := s.eventLog ++ [Event.Paused sender] } := by
  unfold pause at h
  by_cases c1 : sender ≠ s.owner
  · rw [if_pos c1] at h; exact Except.noConfusion h
  · rw [if_neg c1] at h
    exact ⟨by simpa using c1, (Except.ok.inj h).symm⟩

/-- Inversion of a successful `unpause`. -/
theorem unpause_ok (s : ContractState) (sender : Nat) (s' : ContractState)
    (h : unpause s sender = .ok s') :
    sender = s.owner ∧
    s' = { s with paused := false
                  eventLog := s.eventLog ++ [Event.Unpaused sender] } := by
  unfold unpause at h
  by_cases c1 : sender ≠ s.owner
  · rw [if_pos c1] at h; exact Except.noConfusion h
  · rw [if_neg c1] at h
    exact ⟨by simpa using c1, (Except.ok.inj h).symm⟩

/-- Inversion of a successful `setCooldownSeconds`. -/
theorem setCooldownSeconds_ok (s : ContractState) (sender n : Nat)
    (s' : ContractState) (h : setCooldownSeconds s sender n = .ok s') :
    sender = s.owner ∧ n ≠ 0 ∧
    s' = { s with cooldownSeconds := n
                  eventLog := s.eventLog ++ [Event.CooldownSet n] } := by
  unfold setCooldownSeconds at h
  by_cases c1 : sender ≠ s.owner
  · rw [if_pos c1] at h; exact Except.noConfusion h
  · rw [if_neg c1] at h
    by_cases c2 : n = 0
    · rw [if_pos c2] at h; exact Except.noConfusion h
    · rw [if_neg c2] at h
      exact ⟨by simpa using c1, c2, (Except.ok.inj h).symm⟩

/-- Inversion of a successful `openBatch`. -/
theorem openBatch_ok (s : ContractState) (sender : Nat) (s' : ContractState)
    (h : openBatch s sender = .ok s') :
    sender = s.owner ∧ s.paused = false ∧
    s' = { s with
      batches := s.batches ++ [{ id := s.batches.length % 2 ^ 32, isOpen := true }]
      eventLog := s.eventLog ++ [Event.BatchOpened (s.batches.length % 2 ^ 32)] } := by
  unfold openBatch at h
  by_cases c1 : sender ≠ s.owner
  · rw [if_pos c1] at h; exact Except.noConfusion h
  · rw [if_neg c1] at h
    by_cases c2 : s.paused = true
    · rw [if_pos c2] at h; exact Except.noConfusion h
    · rw [if_neg c2] at h
      exact ⟨by simpa using c1, by simpa using c2, (Except.ok.inj h).symm⟩

/-- Inversion of a successful `closeBatch`. -/
theorem closeBatch_ok (s : ContractState) (sender batchId : Nat)
    (s' : ContractState) (h : closeBatch s sender batchId = .ok s') :
    sender = s.owner ∧ s.paused = false ∧
    ∃ b, s.batches[batchId]? = some b ∧ b.isOpen = true ∧
      s' = { s with batches := s.batches.set batchId { b with isOpen := false }
                    eventLog := s.eventLog ++ [Event.BatchClosed batchId] } := by
  unfold closeBatch at h
  by_cases c1 : sender ≠ s.owner
  · rw [if_pos c1] at h; exact Except.noConfusion h
  · rw [if_neg c1] at h
    by_cases c2 : s.paused = true
    · rw [if_pos c2] at h; exact Except.noConfusion h
    · rw [if_neg c2] at h
      cases heq : s.batches[batchId]? with
      | none => simp only [heq] at h; exact Except.noConfusion h
      | some b =>
        simp only [heq] at h
        by_cases c3 : (!b.isOpen) = true
        · rw [if_pos c3] at h; exact Except.noConfusion h
        · rw [if_neg c3] at h
          exact ⟨by simpa using c1, by simpa using c2, b, rfl, by simpa using c3,
            (Except.ok.inj h).symm⟩

/-- Inversion of a successful `submitContribution`. -/
theorem submitContribution_ok (s : ContractState) (sender now batchId : Nat)
    (cid : Bytes32) (sk c : EUint32) (s' : ContractState)
    (h : submitContribution s sender now batchId cid sk c = .ok s') :
    lookupD s.providers sender false = true ∧ s.paused = false ∧
    ¬ now < lookupD s.lastSubmissionTime sender 0 + s.cooldownSeconds ∧
    (∃ b, s.batches[batchId]? = some b ∧ b.isOpen = true) ∧
    (lookupD s.contributions cid defaultContribution).exists_ = false ∧
    s' = { s with
      contributions := setK s.contributions cid
        { skillScore := sk, contributionScore := c
          totalScore := .add sk c, exists_ := true }
      lastSubmissionTime := setK s.lastSubmissionTime sender now
      eventLog := s.eventLog ++ [Event.ContributionSubmitted sender batchId cid] } := by
  simp only [submitContribution] at h
  by_cases c1 : (!lookupD s.providers sender false) = true
  · rw [if_pos c1] at h; exact Except.noConfusion h
  · rw [if_neg c1] at h
    by_cases c2 : s.paused = true
    · rw [if_pos c2] at h; exact Except.noConfusion h
    · rw [if_neg c2] at h
      by_cases c3 : now < lookupD s.lastSubmissionTime sender 0 + s.cooldownSeconds
      · rw [if_pos c3] at h; exact Except.noConfusion h
      · rw [if_neg c3] at h
        cases heq : s.batches[batchId]? with
        | none => simp only [heq] at h; exact Except.noConfusion h
        | some b =>
          simp only [heq] at h
          by_cases c4 : (!b.isOpen) = true
          · rw [if_pos c4] at h; exact Except.noConfusion h
          · rw [if_neg c4] at h
            by_cases c5 : (lookupD s.contributions cid defaultContribution).exists_ = true
            · rw [if_pos c5] at h; exact Except.noConfusion h
            · rw [if_neg c5] at h
              exact ⟨by simpa using c1, by simpa using c2, c3,
                ⟨b, rfl, by simpa using c4⟩, by simpa using c5,
                (Except.ok.inj h).symm⟩

/-- Inversion of a successful `requestBatchScoreDecryption`. -/
theorem requestBatchScoreDecryption_ok (s : ContractState)
    (sender now batchId requestId : Nat) (s' : ContractState)
    (h : requestBatchScoreDecryption s sender now batchId requestId = .ok s') :
    sender = s.owner ∧ s.paused = false ∧
    ¬ now < lookupD s.lastDecryptionRequestTime sender 0 + s.cooldownSeconds ∧
    (∃ b, s.batches[batchId]? = some b ∧ b.isOpen = false) ∧
    s' = { s with
      decryptionContexts := setK s.decryptionContexts requestId
        { batchId := batchId
          stateHash := hashCiphertexts (batchCts s.batches batchId) s.selfAddr
          processed := false }
      lastDecryptionRequestTime := setK s.lastDecryptionRequestTime sender now
      eventLog := s.eventLog ++ [Event.DecryptionRequested requestId batchId] } := by
  simp only [requestBatchScoreDecryption] at h
  by_cases c1 : sender ≠ s.owner
  · rw [if_pos c1] at h; exact Except.noConfusion h
  · rw [if_neg c1] at h
    by_cases c2 : s.paused = true
    · rw [if_pos c2] at h; exact Except.noConfusion h
    · rw [if_neg c2] at h
      by_cases c3 : now < lookupD s.lastDecryptionRequestTime sender 0 + s.cooldownSeconds
      · rw [if_pos c3] at h; exact Except.noConfusion h
      · rw [if_neg c3] at h
        cases heq : s.batches[batchId]? with
        | none => simp only [heq] at h; exact Except.noConfusion h
        | some b =>
          simp only [heq] at h
          by_cases c4 : b.isOpen = true
          · rw [if_pos c4] at h; exact Except.noConfusion h
          · rw [if_neg c4] at h
            exact ⟨by simpa using c1, by simpa using c2, c3,
              ⟨b, rfl, by simpa using c4⟩, (Except.ok.inj h).symm⟩

/-- Inversion of a successful `myCallback`. -/
theorem myCallback_ok (s : ContractState) (sender requestId : Nat) (cl : List Nat)
    (sigOk : Bool) (s' : ContractState)
    (h : myCallback s sender requestId cl sigOk = .ok s') :
    (lookupD s.decryptionContexts requestId defaultContext).processed = false ∧
    cl.length = 32 ∧
    hashCiphertexts
        (batchCts s.batches (lookupD s.decryptionContexts requestId defaultContext).batchId)
        s.selfAddr
      = (lookupD s.decryptionContexts requestId defaultContext).stateHash ∧
    sigOk = true ∧
    s' = { s with
      decryptionContexts := setK s.decryptionContexts requestId
        { lookupD s.decryptionContexts requestId defaultContext with processed := true }
      eventLog := s.eventLog ++ [Event.DecryptionCompleted requestId
        (lookupD s.decryptionContexts requestId defaultContext).batchId
        (decodeUint256 cl)] } := by
  simp only [myCallback] at h
  by_cases c1 : (lookupD s.decryptionContexts requestId defaultContext).processed = true
  · rw [if_pos c1] at h; exact Except.noConfusion h
  · rw [if_neg c1] at h
    by_cases c2 : cl.length ≠ 32
    · rw [if_pos c2] at h; exact Except.noConfusion h
    · rw [if_neg c2] at h
      by_cases c3 : hashCiphertexts
          (batchCts s.batches (lookupD s.decryptionContexts requestId defaultContext).batchId)
          s.selfAddr
        ≠ (lookupD s.decryptionContexts requestId defaultContext).stateHash
      · rw [if_pos c3] at h; exact Except.noConfusion h
      · rw [if_neg c3] at h
        by_cases c4 : (!sigOk) = true
        · rw [if_pos c4] at h; exact Except.noConfusion h
        · rw [if_neg c4] at h
          exact ⟨by simpa using c1, by simpa using c2, by simpa using c3,
            by simpa using c4, (Except.ok.inj h).symm⟩

/-- A closed batch stays closed (with its id intact) across every
external call. -/
theorem step_batches_closed (s : ContractState) (op : Op) (i : Nat) (b : Batch)
    (hb : s.batches[i]? = some b) (hclosed : b.isOpen = false) :
    ∃ b', (step s op).batches[i]? = some b' ∧ b'.id = b.id ∧ b'.isOpen = false := by
  have hlt : i < s.batches.length := by
    by_contra hge
    rw [List.getElem?_eq_none (Nat.le_of_not_lt hge)] at hb
    exact Option.noConfusion hb
  cases hrun : runOp s op with
  | error e => rw [step_eq_of_error hrun]; exact ⟨b, hb, rfl, hclosed⟩
  | ok s' =>
    rw [step_eq_of_ok hrun]
    cases op with
    | addProvider sender p =>
        obtain ⟨_, _, hs⟩ := addProvider_ok s sender p s' hrun
        subst hs; exact ⟨b, hb, rfl, hclosed⟩
    | removeProvider sender p =>
        obtain ⟨_, _, hs⟩ := removeProvider_ok s sender p s' hrun
        subst hs; exact ⟨b, hb, rfl, hclosed⟩
    | pause sender =>
        obtain ⟨_, hs⟩ := pause_ok s sender s' hrun
        subst hs; exact ⟨b, hb, rfl, hclosed⟩
    | unpause sender =>
        obtain ⟨_, hs⟩ := unpause_ok s sender s' hrun
        subst hs; exact ⟨b, hb, rfl, hclosed⟩
    | setCooldownSeconds sender n =>
        obtain ⟨_, _, hs⟩ := setCooldownSeconds_ok s sender n s' hrun
        subst hs; exact ⟨b, hb, rfl, hclosed⟩
    | openBatch sender =>
        obtain ⟨_, _, hs⟩ := openBatch_ok s sender s' hrun
        subst hs
        refine ⟨b, ?_, rfl, hclosed⟩
        show (s.batches ++ _)[i]? = some b
        rw [List.getElem?_append, if_pos hlt]; exact hb
    | closeBatch sender batchId =>
        obtain ⟨_, _, b0, hb0, _, hs⟩ := closeBatch_ok s sender batchId s' hrun
        subst hs
        by_cases he : batchId = i
        · subst he
          have hbb : b0 = b := by rw [hb0] at hb; exact Option.some.inj hb
          subst hbb
          exact ⟨{ b0 with isOpen := false }, by
            simp [List.getElem?_set_self, hlt], rfl, rfl⟩
        · exact ⟨b, by rw [List.getElem?_set_ne he]; exact hb, rfl, hclosed⟩
    | submitContribution sender now bid cid sk c =>
        obtain ⟨_, _, _, _, _, hs⟩ := submitContribution_ok s sender now bid cid sk c s' hrun
        subst hs; exact ⟨b, hb, rfl, hclosed⟩
    | requestBatchScoreDecryption sender now bid rid =>
        obtain ⟨_, _, _, _, hs⟩ := requestBatchScoreDecryption_ok s sender now bid rid s' hrun
        subst hs; exact ⟨b, hb, rfl, hclosed⟩
    | myCallback sender rid cl ok =>
        obtain ⟨_, _, _, _, hs⟩ := myCallback_ok s sender rid cl ok s' hrun
        subst hs; exact ⟨b, hb, rfl, hclosed⟩

/-- A stored contribution record (`exists = true`) is read back unchanged
after every external call: no operation mutates or deletes it. -/
theorem step_contributions_stable (s : ContractState) (op : Op) (cid : Bytes32)
    (h : (lookupD s.contributions cid defaultContribution).exists_ = true) :
    lookupD (step s op).contributions cid defaultContribution =
      lookupD s.contributions cid defaultContribution := by
  cases hrun : runOp s op with
  | error e => rw [step_eq_of_error hrun]
  | ok s' =>
    rw [step_eq_of_ok hrun]
    cases op with
    | addProvider sender p =>
        obtain ⟨_, _, hs⟩ := addProvider_ok s sender p s' hrun
        subst hs; rfl
    | removeProvider sender p =>
        obtain ⟨_, _, hs⟩ := removeProvider_ok s sender p s' hrun
        subst hs; rfl
    | pause sender =>
        obtain ⟨_, hs⟩ := pause_ok s sender s' hrun
        subst hs; rfl
    | unpause sender =>
        obtain ⟨_, hs⟩ := unpause_ok s sender s' hrun
        subst hs; rfl
    | setCooldownSeconds sender n =>
        obtain ⟨_, _, hs⟩ := setCooldownSeconds_ok s sender n s' hrun
        subst hs; rfl
    | openBatch sender =>
        obtain ⟨_, _, hs⟩ := openBatch_ok s sender s' hrun
        subst hs; rfl
    | closeBatch sender batchId =>
        obtain ⟨_, _, b0, _, _, hs⟩ := closeBatch_ok s sender batchId s' hrun
        subst hs; rfl
    | submitContribution sender now bid cid' sk c =>
        obtain ⟨_, _, _, _, hfresh, hs⟩ := submitContribution_ok s sender now bid cid' sk c s' hrun
        subst hs
        have hne : cid ≠ cid' := by
          intro he; rw [he, hfresh] at h; exact Bool.noConfusion h
        show lookupD (setK s.contributions cid' _) cid defaultContribution = _
        rw [lookupD_setK, if_neg hne]
    | requestBatchScoreDecryption sender now bid rid =>
        obtain ⟨_, _, _, _, hs⟩ := requestBatchScoreDecryption_ok s sender now bid rid s' hrun
        subst hs; rfl
    | myCallback sender rid cl ok =>
        obtain ⟨_, _, _, _, hs⟩ := myCallback_ok s sender rid cl ok s' hrun
        subst hs; rfl

/-- The `processed` flag is never reset: once `true`, it stays `true`
across every external call, provided the oracle never reuses a request id
(`freshOracleIds`). -/
theorem step_processed_stable (s : ContractState) (op : Op) (rid : Nat)
    (hfresh : freshOracleIds s op)
    (h : (lookupD s.decryptionContexts rid defaultContext).processed = true) :
    (lookupD (step s op).decryptionContexts rid defaultContext).processed = true := by
  cases hrun : runOp s op with
  | error e => rw [step_eq_of_error hrun]; exact h
  | ok s' =>
    rw [step_eq_of_ok hrun]
    cases op with
    | addProvider sender p =>
        obtain ⟨_, _, hs⟩ := addProvider_ok s sender p s' hrun
        subst hs; exact h
    | removeProvider sender p =>
        obtain ⟨_, _, hs⟩ := removeProvider_ok s sender p s' hrun
        subst hs; exact h
    | pause sender =>
        obtain ⟨_, hs⟩ := pause_ok s sender s' hrun
        subst hs; exact h
    | unpause sender =>
        obtain ⟨_, hs⟩ := unpause_ok s sender s' hrun
        subst hs; exact h
    | setCooldownSeconds sender n =>
        obtain ⟨_, _, hs⟩ := setCooldownSeconds_ok s sender n s' hrun
        subst hs; exact h
    | openBatch sender =>
        obtain ⟨_, _, hs⟩ := openBatch_ok s sender s' hrun
        subst hs; exact h
    | closeBatch sender batchId =>
        obtain ⟨_, _, b0, _, _, hs⟩ := closeBatch_ok s sender batchId s' hrun
        subst hs; exact h
    | submitContribution sender now bid cid sk c =>
        obtain ⟨_, _, _, _, _, hs⟩ := submitContribution_ok s sender now bid cid sk c s' hrun
        subst hs; exact h
    | requestBatchScoreDecryption sender now bid rid' =>
        obtain ⟨_, _, _, _, hs⟩ := requestBatchScoreDecryption_ok s sender now bid rid' s' hrun
        subst hs
        have hne : rid ≠ rid' := by
          intro he; subst he
          simp only [freshOracleIds] at hfresh
          simp only [lookupD, hfresh, defaultContext] at h
          exact Bool.noConfusion h
        show (lookupD (setK _ rid' _) rid defaultContext).processed = true
        rw [lookupD_setK, if_neg hne]; exact h
    | myCallback sender rid' cl ok =>
        obtain ⟨hproc, _, _, _, hs⟩ := myCallback_ok s sender rid' cl ok s' hrun
        subst hs
        have hne : rid ≠ rid' := by
          intro he; subst he; rw [h] at hproc; exact Bool.noConfusion hproc
        show (lookupD (setK _ rid' _) rid defaultContext).processed = true
        rw [lookupD_setK, if_neg hne]; exact h

/-- `ContribInvariant` is preserved by every external call. -/
theorem contribInvariant_step (s : ContractState) (op : Op)
    (hInv : ContribInvariant s) : ContribInvariant (step s op) := by
  cases hrun : runOp s op with
  | error e => rw [step_eq_of_error hrun]; exact hInv
  | ok s' =>
    rw [step_eq_of_ok hrun]
    cases op with
    | addProvider sender p =>
        obtain ⟨_, _, hs⟩ := addProvider_ok s sender p s' hrun
        subst hs; exact hInv
    | removeProvider sender p =>
        obtain ⟨_, _, hs⟩ := removeProvider_ok s sender p s' hrun
        subst hs; exact hInv
    | pause sender =>
        obtain ⟨_, hs⟩ := pause_ok s sender s' hrun
        subst hs; exact hInv
    | unpause sender =>
        obtain ⟨_, hs⟩ := unpause_ok s sender s' hrun
        subst hs; exact hInv
    | setCooldownSeconds sender n =>
        obtain ⟨_, _, hs⟩ := setCooldownSeconds_ok s sender n s' hrun
        subst hs; exact hInv
    | openBatch sender =>
        obtain ⟨_, _, hs⟩ := openBatch_ok s sender s' hrun
        subst hs; exact hInv
    | closeBatch sender batchId =>
        obtain ⟨_, _, b0, _, _, hs⟩ := closeBatch_ok s sender batchId s' hrun
        subst hs; exact hInv
    | submitContribution sender now bid cid sk c =>
        obtain ⟨_, _, _, _, hfresh, hs⟩ := submitContribution_ok s sender now bid cid sk c s' hrun
        subst hs
        obtain ⟨h1, h2⟩ := hInv
        constructor
        · intro kv hkv
          rcases List.mem_cons.mp hkv with he | hm
          · rw [he]
          · exact h1 kv hm
        · refine List.nodup_cons.mpr ⟨?_, h2⟩
          intro hmem
          obtain ⟨kv, hkvmem, hfst⟩ := List.mem_map.mp hmem
          cases hfind : s.contributions.find? (fun x => x.1 = cid) with
          | none =>
            rw [List.find?_eq_none] at hfind
            exact absurd hfst (by simpa using hfind kv hkvmem)
          | some kv' =>
            have hmem' := List.mem_of_find?_eq_some hfind
            have hx : (lookupD s.contributions cid defaultContribution).exists_ = true := by
              simp only [lookupD, hfind]; exact h1 kv' hmem'
            rw [hfresh] at hx
            exact Bool.noConfusion hx
    | requestBatchScoreDecryption sender now bid rid =>
        obtain ⟨_, _, _, _, hs⟩ := requestBatchScoreDecryption_ok s sender now bid rid s' hrun
        subst hs; exact hInv
    | myCallback sender rid cl ok =>
        obtain ⟨_, _, _, _, hs⟩ := myCallback_ok s sender rid cl ok s' hrun
        subst hs; exact hInv

/-- `ContribInvariant` holds in every state reachable from one where it
holds. -/
theorem contribInvariant_execOps (ops : List Op) (s : ContractState)
    (hInv : ContribInvariant s) : ContribInvariant (execOps s ops) := by
  induction ops generalizing s with
  | nil => exact hInv
  | cons op ops ih => exact ih (step s op) (contribInvariant_step s op hInv)

/-- `ContribInvariant` holds at deployment. -/
theorem contribInvariant_initial (deployer selfAddr : Nat) :
    ContribInvariant (initialState deployer selfAddr) := by
  constructor
  · intro kv hkv; exact absurd hkv (List.not_mem_nil kv)
  · exact List.nodup_nil

/-! ### Claims -/

/-- **C3**: when a context's `processed` flag is already `true` (as after a
previously accepted payload for that `requestId`), a further
`onDecryptionCallback` with the same `requestId` fails with
`ReplayDetected`, changes no state, and appends no event (in particular no
second `DecryptionCompleted`); and the `processed` flag is never reset by
any external call (given oracle-unique request ids). -/
theorem C3_replay_rejected (s : ContractState) (sender requestId : Nat)
    (cl : List Nat) (sigOk : Bool)
    (hproc : (lookupD s.decryptionContexts requestId defaultContext).processed = true) :
    myCallback s sender requestId cl sigOk = .error .ReplayDetected ∧
    step s (Op.myCallback sender requestId cl sigOk) = s ∧
    (step s (Op.myCallback sender requestId cl sigOk)).eventLog = s.eventLog ∧
    (∀ op, freshOracleIds s op →
      (lookupD (step s op).decryptionContexts requestId defaultContext).processed
        = true) := by
  have h1 : myCallback s sender requestId cl sigOk = .error .ReplayDetected := by
    simp only [myCallback]
    rw [if_pos hproc]
  have hstep : step s (Op.myCallback sender requestId cl sigOk) = s :=
    step_eq_of_error
      (show runOp s (Op.myCallback sender requestId cl sigOk)
          = .error .ReplayDetected from h1)
  exact ⟨h1, hstep, by rw [hstep],
    fun op hf => step_processed_stable s op requestId hf hproc⟩

/-- Witness for C3: in the concrete scenario, after the accepted callback
for request `5`, a second identical delivery is rejected with
`ReplayDetected` and leaves the state (hence the event log) unchanged. -/
theorem C3_witness :
    myCallback exDone 42 5 cl32 true = .error .ReplayDetected ∧
    step exDone (Op.myCallback 42 5 cl32 true) = exDone :=
  ⟨(C3_replay_rejected exDone 42 5 cl32 true (by decide)).1,
   (C3_replay_rejected exDone 42 5 cl32 true (by decide)).2.1⟩

/-- **C4 counterexample**: resubmitting the already-stored contribution id
`word 11` reverts with `InvalidArgument`, not with a `DuplicateContribution`
error — the contract declares no `DuplicateContribution` error at all (see
the `Err` type, a faithful copy of the source's error list). -/
theorem C4_counterexample :
    (lookupD exSub.contributions (Bytes32.word 11) defaultContribution).exists_
      = true ∧
    submitContribution exSub 1 200 0 (Bytes32.word 11)
        (.asEuint32 1) (.asEuint32 2)
      = .error .InvalidArgument := by decide

/-- **C4 amended**: `submitContribution` fails with `InvalidArgument` (the
source's error for this case; no `DuplicateContribution` error exists) when
the supplied `contributionId` already exists, leaving all state unchanged;
only when the id is fresh is the new record stored. -/
theorem C4_duplicate_id_rejected (s : ContractState) (sender now batchId : Nat)
    (cid : Bytes32) (sk c : EUint32) (b : Batch)
    (hprov : lookupD s.providers sender false = true)
    (hpaused : s.paused = false)
    (hcool : ¬ now < lookupD s.lastSubmissionTime sender 0 + s.cooldownSeconds)
    (hb : s.batches[batchId]? = some b) (hopen : b.isOpen = true) :
    ((lookupD s.contributions cid defaultContribution).exists_ = true →
      submitContribution s sender now batchId cid sk c = .error .InvalidArgument ∧
      step s (Op.submitContribution sender now batchId cid sk c) = s) ∧
    ((lookupD s.contributions cid defaultContribution).exists_ = false →
      submitContribution s sender now batchId cid sk c = .ok { s with
        contributions := setK s.contributions cid
          { skillScore := sk, contributionScore := c
            totalScore := .add sk c, exists_ := true }
        lastSubmissionTime := setK s.lastSubmissionTime sender now
        eventLog := s.eventLog ++
          [Event.ContributionSubmitted sender batchId cid] }) := by
  constructor
  · intro hdup
    have h1 : submitContribution s sender now batchId cid sk c
        = .error .InvalidArgument := by
      simp only [submitContribution]
      rw [if_neg (by simp [hprov]), if_neg (by simp [hpaused]), if_neg hcool]
      simp only [hb]
      rw [if_neg (by simp [hopen]), if_pos hdup]
    exact ⟨h1, step_eq_of_error
      (show runOp s (Op.submitContribution sender now batchId cid sk c)
          = .error .InvalidArgument from h1)⟩
  · intro hfresh
    simp only [submitContribution]
    rw [if_neg (by simp [hprov]), if_neg (by simp [hpaused]), if_neg hcool]
    simp only [hb]
    rw [if_neg (by simp [hopen]), if_neg (by simp [hfresh])]

/-- Witness for C4: the duplicate branch applied to the concrete duplicate
submission. -/
theorem C4_witness :
    submitContribution exSub 1 200 0 (Bytes32.word 11)
        (.asEuint32 1) (.asEuint32 2)
      = .error .InvalidArgument ∧
    step exSub (Op.submitContribution 1 200 0 (Bytes32.word 11)
        (.asEuint32 1) (.asEuint32 2)) = exSub :=
  (C4_duplicate_id_rejected exSub 1 200 0 (Bytes32.word 11)
      (.asEuint32 1) (.asEuint32 2) { id := 0, isOpen := true }
      (by decide) (by decide) (by decide) (by decide) (by decide)).1 (by decide)

/-- **C5 counterexample**: calling the callback with a `requestId` that has
no context (`77`) does not fail with an `UnknownRequest` error — the
contract declares no such error and performs no existence check; on a
well-formed cleartext it falls through to the hash comparison and fails
with `StateMismatch`. -/
theorem C5_counterexample :
    exReq.decryptionContexts.find? (fun kv => kv.1 = 77) = none ∧
    myCallback exReq 42 77 cl32 true = .error .StateMismatch := by decide

/-- **C5 amended**: for a `requestId` with no stored context the callback
reads the mapping default (`processed = false`, `batchId = 0`, zero state
hash) and fails — with `DecryptionFailed` when the cleartext is malformed,
otherwise with `StateMismatch`, because the recomputed keccak hash can
never equal the zero default — never with an `UnknownRequest` error, which
does not exist; the state is unchanged. -/
theorem C5_unknown_request (s : ContractState) (sender requestId : Nat)
    (cl : List Nat) (sigOk : Bool)
    (hnone : s.decryptionContexts.find? (fun kv => kv.1 = requestId) = none) :
    myCallback s sender requestId cl sigOk =
      .error (if cl.length = 32 then .StateMismatch else .DecryptionFailed) ∧
    step s (Op.myCallback sender requestId cl sigOk) = s := by
  have hctx : lookupD s.decryptionContexts requestId defaultContext
      = defaultContext := by
    simp [lookupD, hnone]
  have h1 : myCallback s sender requestId cl sigOk =
      .error (if cl.length = 32 then .StateMismatch else .DecryptionFailed) := by
    simp only [myCallback, hctx]
    rw [if_neg (show ¬ defaultContext.processed = true by simp [defaultContext])]
    by_cases hlen : cl.length = 32
    · rw [if_neg (show ¬ cl.length ≠ 32 by simp [hlen]),
        if_pos (show hashCiphertexts (batchCts s.batches defaultContext.batchId)
            s.selfAddr ≠ defaultContext.stateHash by
          simp [hashCiphertexts, defaultContext]),
        if_pos hlen]
    · rw [if_pos hlen, if_neg (show ¬ cl.length = 32 from hlen)]
  refine ⟨h1, step_eq_of_error (e := if cl.length = 32 then .StateMismatch
    else .DecryptionFailed) ?_⟩
  exact h1

/-- Witness for C5: concrete unknown request id `77` against the scenario
state, with a well-formed cleartext. -/
theorem C5_witness :
    myCallback exReq 42 77 cl32 true
      = .error (if cl32.length = 32 then .StateMismatch else .DecryptionFailed) ∧
    step exReq (Op.myCallback 42 77 cl32 true) = exReq :=
  C5_unknown_request exReq 42 77 cl32 true (by decide)

/-- **C6 counterexample**: `setCooldownSeconds` carries no pause guard in
the source: while the system is paused, the owner's call succeeds and
mutates state, so it is not true that every state-mutating operation other
than `unpause` fails while paused. -/
theorem C6_counterexample :
    exPaused.paused = true ∧
    setCooldownSeconds exPaused 0 5 = .ok { exPaused with
      cooldownSeconds := 5
      eventLog := exPaused.eventLog ++ [Event.CooldownSet 5] } ∧
    step exPaused (Op.setCooldownSeconds 0 5) ≠ exPaused := by decide

/-- **C6 amended**: while paused, `addProvider`, `removeProvider`,
`openBatch`, `closeBatch`, `submitContribution` and
`requestBatchScoreDecryption` fail with `Paused` for callers that pass
their role check, and never mutate state for any caller; `setCooldownSeconds`
is excluded because the source omits its pause guard. -/
theorem C6_paused_blocks_mutations (s : ContractState) (hp : s.paused = true) :
    (∀ p, addProvider s s.owner p = .error .Paused) ∧
    (∀ p, removeProvider s s.owner p = .error .Paused) ∧
    openBatch s s.owner = .error .Paused ∧
    (∀ bid, closeBatch s s.owner bid = .error .Paused) ∧
    (∀ sender now bid cid sk c, lookupD s.providers sender false = true →
      submitContribution s sender now bid cid sk c = .error .Paused) ∧
    (∀ now bid rid,
      requestBatchScoreDecryption s s.owner now bid rid = .error .Paused) ∧
    (∀ sender p, step s (Op.addProvider sender p) = s) ∧
    (∀ sender p, step s (Op.removeProvider sender p) = s) ∧
    (∀ sender, step s (Op.openBatch sender) = s) ∧
    (∀ sender bid, step s (Op.closeBatch sender bid) = s) ∧
    (∀ sender now bid cid sk c,
      step s (Op.submitContribution sender now bid cid sk c) = s) ∧
    (∀ sender now bid rid,
      step s (Op.requestBatchScoreDecryption sender now bid rid) = s) := by
  refine ⟨?_, ?_, ?_, ?_, ?_, ?_, ?_, ?_, ?_, ?_, ?_, ?_⟩
  · intro p; simp [addProvider, hp]
  · intro p; simp [removeProvider, hp]
  · simp [openBatch, hp]
  · intro bid; simp [closeBatch, hp]
  · intro sender now bid cid sk c hprov
    simp [submitContribution, hprov, hp]
  · intro now bid rid; simp [requestBatchScoreDecryption, hp]
  · intro sender p
    cases hrun : runOp s (Op.addProvider sender p) with
    | error e => exact step_eq_of_error hrun
    | ok s' =>
      obtain ⟨_, hpf, _⟩ := addProvider_ok s sender p s' hrun
      rw [hp] at hpf; exact Bool.noConfusion hpf
  · intro sender p
    cases hrun : runOp s (Op.removeProvider sender p) with
    | error e => exact step_eq_of_error hrun
    | ok s' =>
      obtain ⟨_, hpf, _⟩ := removeProvider_ok s sender p s' hrun
      rw [hp] at hpf; exact Bool.noConfusion hpf
  · intro sender
    cases hrun : runOp s (Op.openBatch sender) with
    | error e => exact step_eq_of_error hrun
    | ok s' =>
      obtain ⟨_, hpf, _⟩ := openBatch_ok s sender s' hrun
      rw [hp] at hpf; exact Bool.noConfusion hpf
  · intro sender bid
    cases hrun : runOp s (Op.closeBatch sender bid) with
    | error e => exact step_eq_of_error hrun
    | ok s' =>
      obtain ⟨_, hpf, _⟩ := closeBatch_ok s sender bid s' hrun
      rw [hp] at hpf; exact Bool.noConfusion hpf
  · intro sender now bid cid sk c
    cases hrun : runOp s (Op.submitContribution sender now bid cid sk c) with
    | error e => exact step_eq_of_error hrun
    | ok s' =>
      obtain ⟨_, hpf, _⟩ := submitContribution_ok s sender now bid cid sk c s' hrun
      rw [hp] at hpf; exact Bool.noConfusion hpf
  · intro sender now bid rid
    cases hrun : runOp s (Op.requestBatchScoreDecryption sender now bid rid) with
    | error e => exact step_eq_of_error hrun
    | ok s' =>
      obtain ⟨_, hpf, _⟩ := requestBatchScoreDecryption_ok s sender now bid rid s' hrun
      rw [hp] at hpf; exact Bool.noConfusion hpf

/-- Witness for C6: in the concrete paused state, `openBatch` by the owner
fails with `Paused` and a non-owner `closeBatch` attempt mutates nothing. -/
theorem C6_witness :
    openBatch exPaused exPaused.owner = .error .Paused ∧
    step exPaused (Op.closeBatch 9 0) = exPaused :=
  ⟨(C6_paused_blocks_mutations exPaused (by decide)).2.2.1,
   (C6_paused_blocks_mutations exPaused (by decide)).2.2.2.2.2.2.2.2.2.1 9 0⟩

/-- **C7 counterexample**: `myCallback` is `public` and never reads
`msg.sender`.  Two distinct callers, `42` and `43` — at most one of which
could be the external oracle — both successfully invoke the callback on the
pending request and change state, so it is false that every non-oracle
caller fails without changing state. -/
theorem C7_counterexample :
    (myCallback exReq 42 5 cl32 true).isOk = true ∧
    (myCallback exReq 43 5 cl32 true).isOk = true ∧
    myCallback exReq 42 5 cl32 true = myCallback exReq 43 5 cl32 true ∧
    step exReq (Op.myCallback 42 5 cl32 true) ≠ exReq := by decide

/-- **C7 amended**: the callback entry point applies no caller
restriction — its outcome is identical for every caller; authenticity is
enforced only by the external signature verification, whose failure is
normalized to `DecryptionFailed` with no state change. -/
theorem C7_callback_caller_independent (s : ContractState)
    (a b requestId : Nat) (cl : List Nat) (sigOk : Bool) :
    myCallback s a requestId cl sigOk = myCallback s b requestId cl sigOk ∧
    ((lookupD s.decryptionContexts requestId defaultContext).processed = false →
      cl.length = 32 →
      hashCiphertexts
          (batchCts s.batches
            (lookupD s.decryptionContexts requestId defaultContext).batchId)
          s.selfAddr
        = (lookupD s.decryptionContexts requestId defaultContext).stateHash →
      myCallback s a requestId cl false = .error .DecryptionFailed ∧
      step s (Op.myCallback a requestId cl false) = s) := by
  refine ⟨rfl, fun hproc hlen hhash => ?_⟩
  have h1 : myCallback s a requestId cl false = .error .DecryptionFailed := by
    simp only [myCallback]
    rw [if_neg (by simp [hproc]), if_neg (by simp [hlen]),
      if_neg (by simp [hhash]), if_pos (by simp)]
  exact ⟨h1, step_eq_of_error
    (show runOp s (Op.myCallback a requestId cl false)
        = .error .DecryptionFailed from h1)⟩

/-- Witness for C7: concrete pending request `5`; a failed signature check
from caller `42` yields `DecryptionFailed` with no state change. -/
theorem C7_witness :
    myCallback exReq 42 5 cl32 false = .error .DecryptionFailed ∧
    step exReq (Op.myCallback 42 5 cl32 false) = exReq :=
  (C7_callback_caller_independent exReq 42 43 5 cl32 true).2
    (by decide) (by decide) (by decide)

/-- **C9 counterexample**: closing the already-closed batch `0` reverts
with the `BatchClosed` error; the contract declares no `AlreadyClosed`
error, so the claim's error name is wrong (the behavior is otherwise as
described). -/
theorem C9_counterexample :
    exClosed.batches[0]? = some { id := 0, isOpen := false } ∧
    closeBatch exClosed 0 0 = .error .BatchClosed := by decide

/-- **C9 amended**: `closeBatch` fails with `InvalidBatch` when the batch
id is unknown and with `BatchClosed` (the source's error; no
`AlreadyClosed` exists) when the batch is not currently open — leaving
state unchanged; otherwise it transitions the batch to closed and emits
`BatchClosed`; and no external call ever returns a closed batch to open. -/
theorem C9_closeBatch_lifecycle (s : ContractState) (sender batchId : Nat)
    (hown : sender = s.owner) (hpaused : s.paused = false) :
    (s.batches[batchId]? = none →
      closeBatch s sender batchId = .error .InvalidBatch) ∧
    (∀ b, s.batches[batchId]? = some b → b.isOpen = false →
      closeBatch s sender batchId = .error .BatchClosed ∧
      step s (Op.closeBatch sender batchId) = s) ∧
    (∀ b, s.batches[batchId]? = some b → b.isOpen = true →
      closeBatch s sender batchId = .ok { s with
        batches := s.batches.set batchId { b with isOpen := false }
        eventLog := s.eventLog ++ [Event.BatchClosed batchId] }) ∧
    (∀ (op : Op) (i : Nat) (b : Batch), s.batches[i]? = some b →
      b.isOpen = false →
      ∃ b' : Batch, (step s op).batches[i]? = some b' ∧ b'.id = b.id ∧
        b'.isOpen = false) := by
  refine ⟨?_, ?_, ?_, fun op i b hb hc => step_batches_closed s op i b hb hc⟩
  · intro hnone
    simp only [closeBatch]
    rw [if_neg (by simp [hown]), if_neg (by simp [hpaused])]
    simp only [hnone]
  · intro b hb hc
    have h1 : closeBatch s sender batchId = .error .BatchClosed := by
      simp only [closeBatch]
      rw [if_neg (by simp [hown]), if_neg (by simp [hpaused])]
      simp only [hb]
      rw [if_pos (by simp [hc])]
    exact ⟨h1, step_eq_of_error
      (show runOp s (Op.closeBatch sender batchId)
          = .error .BatchClosed from h1)⟩
  · intro b hb ho
    simp only [closeBatch]
    rw [if_neg (by simp [hown]), if_neg (by simp [hpaused])]
    simp only [hb]
    rw [if_neg (by simp [ho])]

/-- Witness for C9: the closed-batch branch applied to the concrete
scenario. -/
theorem C9_witness :
    closeBatch exClosed 0 0 = .error .BatchClosed ∧
    step exClosed (Op.closeBatch 0 0) = exClosed :=
  (C9_closeBatch_lifecycle exClosed 0 0 (by decide) (by decide)).2.1
    { id := 0, isOpen := false } (by decide) (by decide)

/-- **C10**: in every state reachable from deployment, all stored
contribution records have their `exists` flag set and no two share a
`contributionId`; and a stored record is read back unchanged after every
external call — contributions are write-once, never mutated or deleted. -/
theorem C10_contributions_write_once (deployer selfAddr : Nat) (ops : List Op)
    (s : ContractState) (op : Op) (cid : Bytes32) :
    ContribInvariant (execOps (initialState deployer selfAddr) ops) ∧
    ((lookupD s.contributions cid defaultContribution).exists_ = true →
      lookupD (step s op).contributions cid defaultContribution =
        lookupD s.contributions cid defaultContribution) :=
  ⟨contribInvariant_execOps ops _ (contribInvariant_initial deployer selfAddr),
   fun h => step_contributions_stable s op cid h⟩

/-- Witness for C10: the concrete scenario call sequence keeps the
invariant, and the stored record `word 11` survives a duplicate-submission
attempt unchanged. -/
theorem C10_witness :
    ContribInvariant (execOps (initialState 0 7)
      [Op.addProvider 0 1, Op.openBatch 0,
       Op.submitContribution 1 100 0 (Bytes32.word 11)
         (.asEuint32 5) (.asEuint32 6)]) ∧
    lookupD (step exSub (Op.submitContribution 1 200 0 (Bytes32.word 11)
        (.asEuint32 9) (.asEuint32 9))).contributions
      (Bytes32.word 11) defaultContribution =
      lookupD exSub.contributions (Bytes32.word 11) defaultContribution :=
  ⟨(C10_contributions_write_once 0 7
      [Op.addProvider 0 1, Op.openBatch 0,
       Op.submitContribution 1 100 0 (Bytes32.word 11)
         (.asEuint32 5) (.asEuint32 6)]
      exSub (Op.submitContribution 1 200 0 (Bytes32.word 11)
        (.asEuint32 9) (.asEuint32 9)) (Bytes32.word 11)).1,
   (C10_contributions_write_once 0 7 []
      exSub (Op.submitContribution 1 200 0 (Bytes32.word 11)
        (.asEuint32 9) (.asEuint32 9)) (Bytes32.word 11)).2 (by decide)⟩

/-- **C1** (evaluation of the code at the failing input): `exIntruded` is
`exReq` — the state at request time, with pending context `5` and its
snapshot hash — after a contribution for the snapshotted batch `0` is added
to storage while the batch table is unchanged.  The callback still
recomputes an identical hash (its aggregate counts matching batch-table
rows and never reads the contributions mapping), so instead of rejecting
with `StateMismatch` as the claim requires, it accepts the stale snapshot
hash and completes. -/
theorem C1_callback_ignores_contribution_changes :
    exIntruded.contributions ≠ exReq.contributions ∧
    exIntruded.batches = exReq.batches ∧
    exIntruded.decryptionContexts = exReq.decryptionContexts ∧
    (lookupD exIntruded.decryptionContexts 5 defaultContext).processed = false ∧
    myCallback exIntruded 42 5 cl32 true ≠ .error .StateMismatch ∧
    (myCallback exIntruded 42 5 cl32 true).isOk = true := by decide

/-- **C2**: the snapshot taken by `requestBatchScoreDecryption` and the
hash re-derived by `myCallback` are functions of the batch table (and the
contract address) only: changing the stored contributions arbitrarily
changes neither run — each is oblivious to the contributions field — and
the aggregate that is hashed is `FHE.asEuint32` of the count of batch-table
rows whose id matches the requested batch id. -/
theorem C2_snapshot_from_batches_only (s : ContractState)
    (cs2 : List (Bytes32 × SkillContribution))
    (sender now batchId requestId : Nat) (cl : List Nat) (sigOk : Bool) :
    requestBatchScoreDecryption { s with contributions := cs2 }
        sender now batchId requestId
      = (requestBatchScoreDecryption s sender now batchId requestId).map
          (fun t => { t with contributions := cs2 }) ∧
    myCallback { s with contributions := cs2 } sender requestId cl sigOk
      = (myCallback s sender requestId cl sigOk).map
          (fun t => { t with contributions := cs2 }) ∧
    (0 < (s.batches.filter (fun b => b.id == batchId)).length →
      batchAggregate s.batches batchId = EUint32.asEuint32
        ((s.batches.filter (fun b => b.id == batchId)).length % 2 ^ 32)) := by
  refine ⟨?_, ?_, ?_⟩
  · by_cases c1 : sender = s.owner
    · subst c1
      by_cases c2 : s.paused = true
      · simp [requestBatchScoreDecryption, Except.map, c2]
      · by_cases c3 : now <
            lookupD s.lastDecryptionRequestTime s.owner 0 + s.cooldownSeconds
        · simp [requestBatchScoreDecryption, Except.map, c2, c3]
        · cases heq : s.batches[batchId]? with
          | none => simp [requestBatchScoreDecryption, Except.map, c2, c3, heq]
          | some b =>
            by_cases c4 : b.isOpen = true <;>
              simp [requestBatchScoreDecryption, Except.map, c2, c3, c4, heq]
    · simp [requestBatchScoreDecryption, Except.map, c1]
  · by_cases c1 :
        (lookupD s.decryptionContexts requestId defaultContext).processed = true <;>
      by_cases c2 : cl.length = 32 <;>
        by_cases c3 : hashCiphertexts
            (batchCts s.batches
              (lookupD s.decryptionContexts requestId defaultContext).batchId)
            s.selfAddr
          = (lookupD s.decryptionContexts requestId defaultContext).stateHash <;>
          cases sigOk <;>
            simp [myCallback, Except.map, c1, c2, c3]
  · intro hpos
    unfold batchAggregate
    cases hfind : s.batches.find? (fun b => b.id == batchId) with
    | none =>
      exfalso
      rw [List.find?_eq_none] at hfind
      have hnil : s.batches.filter (fun b => b.id == batchId) = [] :=
        List.filter_eq_nil_iff.mpr hfind
      rw [hnil] at hpos
      exact Nat.lt_irrefl 0 hpos
    | some _b =>
      simp only [hfind]
      rw [if_pos hpos]

/-- Witness for C2: dropping all stored contributions from the concrete
pre-request state changes nothing about the request's outcome, and the
aggregate for batch `0` is the matching-row count `1`. -/
theorem C2_witness :
    requestBatchScoreDecryption { exClosed with contributions := [] } 0 100 0 5
      = (requestBatchScoreDecryption exClosed 0 100 0 5).map
          (fun t => { t with contributions := [] }) ∧
    batchAggregate exClosed.batches 0 = EUint32.asEuint32
      ((exClosed.batches.filter (fun b => b.id == 0)).length % 2 ^ 32) :=
  ⟨(C2_snapshot_from_batches_only exClosed [] 0 100 0 5 cl32 true).1,
   (C2_snapshot_from_batches_only exClosed [] 0 100 0 5 cl32 true).2.2 (by decide)⟩

/-- **C8**: for an authorized caller in an unpaused state, each guarded
operation fails with `CooldownActive` exactly when
`now < lastActionTime + cooldownSeconds` for its own action class; a
successful call records `now` for its class and leaves the other class's
timer map untouched (the two timers are independent per actor); and any
failing call reverts, leaving the timestamps (with all other state)
unchanged. -/
theorem C8_cooldown_rate_limiter (s : ContractState)
    (sender now batchId requestId : Nat) (cid : Bytes32) (sk c : EUint32) :
    (lookupD s.providers sender false = true → s.paused = false →
      (submitContribution s sender now batchId cid sk c = .error .CooldownActive ↔
        now < lookupD s.lastSubmissionTime sender 0 + s.cooldownSeconds)) ∧
    (∀ s', submitContribution s sender now batchId cid sk c = .ok s' →
      lookupD s'.lastSubmissionTime sender 0 = now ∧
      s'.lastDecryptionRequestTime = s.lastDecryptionRequestTime) ∧
    (sender = s.owner → s.paused = false →
      (requestBatchScoreDecryption s sender now batchId requestId
          = .error .CooldownActive ↔
        now < lookupD s.lastDecryptionRequestTime sender 0 + s.cooldownSeconds)) ∧
    (∀ s', requestBatchScoreDecryption s sender now batchId requestId = .ok s' →
      lookupD s'.lastDecryptionRequestTime sender 0 = now ∧
      s'.lastSubmissionTime = s.lastSubmissionTime) ∧
    (∀ e, submitContribution s sender now batchId cid sk c = .error e →
      step s (Op.submitContribution sender now batchId cid sk c) = s) ∧
    (∀ e, requestBatchScoreDecryption s sender now batchId requestId = .error e →
      step s (Op.requestBatchScoreDecryption sender now batchId requestId) = s) := by
  refine ⟨?_, ?_, ?_, ?_, ?_, ?_⟩
  · intro hprov hpaused
    constructor
    · intro hres
      by_contra hncond
      simp only [submitContribution] at hres
      rw [if_neg (by simp [hprov]), if_neg (by simp [hpaused]),
        if_neg hncond] at hres
      cases heq : s.batches[batchId]? with
      | none =>
        simp only [heq] at hres
        exact Err.noConfusion (Except.error.inj hres)
      | some b =>
        simp only [heq] at hres
        by_cases c4 : (!b.isOpen) = true
        · rw [if_pos c4] at hres
          exact Err.noConfusion (Except.error.inj hres)
        · rw [if_neg c4] at hres
          by_cases c5 :
              (lookupD s.contributions cid defaultContribution).exists_ = true
          · rw [if_pos c5] at hres
            exact Err.noConfusion (Except.error.inj hres)
          · rw [if_neg c5] at hres
            exact Except.noConfusion hres
    · intro hcond
      simp only [submitContribution]
      rw [if_neg (by simp [hprov]), if_neg (by simp [hpaused]), if_pos hcond]
  · intro s' hok
    obtain ⟨_, _, _, _, _, hs⟩ :=
      submitContribution_ok s sender now batchId cid sk c s' hok
    subst hs
    refine ⟨?_, rfl⟩
    show lookupD (setK s.lastSubmissionTime sender now) sender 0 = now
    rw [lookupD_setK, if_pos rfl]
  · intro hown hpaused
    constructor
    · intro hres
      by_contra hncond
      simp only [requestBatchScoreDecryption] at hres
      rw [if_neg (by simp [hown]), if_neg (by simp [hpaused]),
        if_neg hncond] at hres
      cases heq : s.batches[batchId]? with
      | none =>
        simp only [heq] at hres
        exact Err.noConfusion (Except.error.inj hres)
      | some b =>
        simp only [heq] at hres
        by_cases c4 : b.isOpen = true
        · rw [if_pos c4] at hres
          exact Err.noConfusion (Except.error.inj hres)
        · rw [if_neg c4] at hres
          exact Except.noConfusion hres
    · intro hcond
      simp only [requestBatchScoreDecryption]
      rw [if_neg (by simp [hown]), if_neg (by simp [hpaused]), if_pos hcond]
  · intro s' hok
    obtain ⟨_, _, _, _, hs⟩ :=
      requestBatchScoreDecryption_ok s sender now batchId requestId s' hok
    subst hs
    refine ⟨?_, rfl⟩
    show lookupD (setK s.lastDecryptionRequestTime sender now) sender 0 = now
    rw [lookupD_setK, if_pos rfl]
  · intro e he
    exact step_eq_of_error
      (show runOp s (Op.submitContribution sender now batchId cid sk c)
          = .error e from he)
  · intro e he
    exact step_eq_of_error
      (show runOp s (Op.requestBatchScoreDecryption sender now batchId requestId)
          = .error e from he)

/-- Witness for C8: provider `1` last submitted at `100` with a `60`-second
cooldown, so a second submission at `120` fails with `CooldownActive`. -/
theorem C8_witness :
    submitContribution exSub 1 120 0 (Bytes32.word 12)
        (.asEuint32 1) (.asEuint32 1)
      = .error .CooldownActive :=
  ((C8_cooldown_rate_limiter exSub 1 120 0 9 (Bytes32.word 12)
      (.asEuint32 1) (.asEuint32 1)).1 (by decide) (by decide)).mpr (by decide)

end DAOSkillProof
